import Mathlib

/-!
Verification development for the `monitor.py` page-change monitor.

Texts are modelled as `List Char` (Python `str`), persisted JSON values as
the inductive `PyVal`, and the on-disk state file as `StateFile`.  All
definitions are shallow embeddings of the functions in `src/monitor.py`;
the HTTP fetch and the Pushover transport are external collaborators and
appear only as inputs (`Except` fetch results) and outputs (`Notif`
records describing each `send_notification` call).
-/

set_option maxRecDepth 100000

namespace Monitor

/-- ASCII whitespace recognised by Python's `\s` / `str.split` on the
inputs this program handles. -/
def isPySpace (c : Char) : Bool :=
  c = ' ' || c = '\t' || c = '\n' || c = '\r' || c = '\x0b' || c = '\x0c'

/-- Python `str.lower()` (ASCII range, as used by the monitor). -/
def lowerL (l : List Char) : List Char := l.map Char.toLower

/-- `startsWithL pat l` is true when `pat` is an initial segment of `l`. -/
def startsWithL : List Char → List Char → Bool
  | [], _ => true
  | _ :: _, [] => false
  | p :: ps, c :: cs => p = c && startsWithL ps cs

/-- Python's substring test `pat in l`. -/
def containsSub : List Char → List Char → Bool
  | [], pat => startsWithL pat []
  | c :: cs, pat => startsWithL pat (c :: cs) || containsSub cs pat

/-- Python `str.lstrip()` (drop leading whitespace). -/
def pyLStrip (l : List Char) : List Char := l.dropWhile isPySpace

/-- Python `str.rstrip()` (drop trailing whitespace). -/
def pyRStrip (l : List Char) : List Char := (l.reverse.dropWhile isPySpace).reverse

/-- Python `str.strip()`. -/
def pyStrip (l : List Char) : List Char := pyRStrip (pyLStrip l)

/-- Model of `re.sub(r'\s+', ' ', text)`: every maximal run of whitespace
becomes a single space. -/
def squeeze : List Char → List Char
  | [] => []
  | [c] => if isPySpace c then [' '] else [c]
  | c :: d :: rest =>
    if isPySpace c && isPySpace d then squeeze (d :: rest)
    else (if isPySpace c then ' ' else c) :: squeeze (d :: rest)

/-- Fuelled worker for `pySplitWs`; the fuel is an upper bound on the
number of characters still to be consumed. -/
def splitWsGo : Nat → List Char → List (List Char)
  | _, [] => []
  | 0, _ => []
  | fuel + 1, c :: cs =>
    if isPySpace c then splitWsGo fuel cs
    else (c :: cs.takeWhile (fun x => !isPySpace x)) ::
      splitWsGo fuel (cs.dropWhile (fun x => !isPySpace x))

/-- Python `str.split()` with no argument: whitespace-delimited tokens,
no empty tokens. -/
def pySplitWs (l : List Char) : List (List Char) := splitWsGo l.length l

/-- Model of `re.split(r'[.!?]', text)`: split on every single occurrence
of a sentence delimiter, keeping empty segments. -/
def splitSent : List Char → List (List Char)
  | [] => [[]]
  | c :: cs =>
    if c = '.' || c = '!' || c = '?' then [] :: splitSent cs
    else
      match splitSent cs with
      | t :: ts => (c :: t) :: ts
      | [] => [[c]]

/-- Python `sep.join(parts)`. -/
def joinWith (sep : List Char) : List (List Char) → List Char
  | [] => []
  | [p] => p
  | p :: q :: rest => p ++ sep ++ joinWith sep (q :: rest)

/-- First-occurrence deduplication worker (`seen` accumulates emitted words). -/
def dedupGo : List (List Char) → List (List Char) → List (List Char)
  | _, [] => []
  | seen, x :: xs =>
    if x ∈ seen then dedupGo seen xs else x :: dedupGo (x :: seen) xs

/-- A deterministic representative of Python's `set(...)`: the input list
with later duplicates removed. -/
def dedupF (l : List (List Char)) : List (List Char) := dedupGo [] l

/-! ### Regex scanners

`re.sub` scans left to right for the leftmost non-overlapping match.  The
three patterns used by `extract_stable_content` are modelled by explicit
scanners.  All of them use a fuel argument equal to the input length so
that they are structurally recursive (and hence kernel-reducible). -/

/-- Drop every character up to and including the first `'>'`; `none` if
there is no `'>'`. -/
def dropThroughGt : List Char → Option (List Char)
  | [] => none
  | c :: cs => if c = '>' then some cs else dropThroughGt cs

/-- Fuelled worker for `stripTags`, the model of
`re.sub(r'<[^>]+>', ' ', text)`: a match is a `'<'`, at least one
non-`'>'` character, then the first following `'>'`; it is replaced by a
single space.  A `'<'` that starts no match is kept and scanning resumes
at the next character. -/
def stripTagsGo : Nat → List Char → List Char
  | _, [] => []
  | 0, c :: cs => c :: cs
  | fuel + 1, c :: cs =>
    if c = '<' then
      match cs with
      | [] => [c]
      | d :: ds =>
        if d = '>' then c :: stripTagsGo fuel cs
        else
          match dropThroughGt (d :: ds) with
          | some r => ' ' :: stripTagsGo fuel r
          | none => c :: stripTagsGo fuel cs
    else c :: stripTagsGo fuel cs

/-- Model of `re.sub(r'<[^>]+>', ' ', text)`. -/
def stripTags (l : List Char) : List Char := stripTagsGo l.length l

/-- Drop everything up to and including the first occurrence of `pat`,
returning the remainder after it; `none` if `pat` never occurs. -/
def dropPastSeq (pat : List Char) : List Char → Option (List Char)
  | [] => none
  | c :: cs =>
    if startsWithL pat (c :: cs) then some ((c :: cs).drop pat.length)
    else dropPastSeq pat cs

/-- Fuelled worker for the block removers, the model of
`re.sub(r'<script[^>]*>.*?</script>', '', html, flags=re.DOTALL)` (and the
analogous style pattern): at a position starting with `openPat` the match
runs through the first following `'>'` and then through the first
occurrence of `closePat` (non-greedy `.*?`); the whole match is deleted.
If either part is missing there is no match at this position and scanning
resumes one character later. -/
def removeBlocksGo (openPat closePat : List Char) : Nat → List Char → List Char
  | _, [] => []
  | 0, l => l
  | fuel + 1, c :: cs =>
    if startsWithL openPat (c :: cs) then
      match dropThroughGt ((c :: cs).drop openPat.length) with
      | none => c :: removeBlocksGo openPat closePat fuel cs
      | some afterGt =>
        match dropPastSeq closePat afterGt with
        | none => c :: removeBlocksGo openPat closePat fuel cs
        | some rest => removeBlocksGo openPat closePat fuel rest
    else c :: removeBlocksGo openPat closePat fuel cs

/-- Model of the script-block removal (line 51 of `monitor.py`). -/
def removeScript (l : List Char) : List Char :=
  removeBlocksGo "<script".data "</script>".data l.length l

/-- Model of the style-block removal (line 52 of `monitor.py`). -/
def removeStyle (l : List Char) : List Char :=
  removeBlocksGo "<style".data "</style>".data l.length l

/-! ### MD5 (`hashlib.md5(text.encode()).hexdigest()`)

The fingerprinter is `hashlib.md5` over the UTF-8 encoding of the
normalized text.  It is implemented here in full (RFC 1321), with 32-bit
words as `Nat` reduced mod `2 ^ 32`. -/

/-- UTF-8 encoding of one character, as byte values. -/
def utf8EncodeChar (c : Char) : List Nat :=
  let n := c.toNat
  if n < 128 then [n]
  else if n < 2048 then [192 + n / 64, 128 + n % 64]
  else if n < 65536 then [224 + n / 4096, 128 + n / 64 % 64, 128 + n % 64]
  else [240 + n / 262144, 128 + n / 4096 % 64, 128 + n / 64 % 64, 128 + n % 64]

/-- Python `text.encode()`: UTF-8 bytes of a string. -/
def utf8Bytes : List Char → List Nat
  | [] => []
  | c :: cs => utf8EncodeChar c ++ utf8Bytes cs

/-- Truncation to a 32-bit word. -/
def w32 (n : Nat) : Nat := n % 4294967296

/-- 32-bit left rotation. -/
def rotl32 (x s : Nat) : Nat := w32 (x * 2 ^ s) + x / 2 ^ (32 - s)

/-- MD5 round functions. -/
def md5F (b c d : Nat) : Nat := (b &&& c) ||| ((4294967295 ^^^ b) &&& d)

def md5G (b c d : Nat) : Nat := (d &&& b) ||| ((4294967295 ^^^ d) &&& c)

def md5H (b c d : Nat) : Nat := b ^^^ c ^^^ d

def md5I (b c d : Nat) : Nat := c ^^^ (b ||| (4294967295 ^^^ d))

/-- The 64 MD5 sine constants (RFC 1321). -/
def md5K : List Nat :=
  [0xd76aa478, 0xe8c7b756, 0x242070db, 0xc1bdceee,
   0xf57c0faf, 0x4787c62a, 0xa8304613, 0xfd469501,
   0x698098d8, 0x8b44f7af, 0xffff5bb1, 0x895cd7be,
   0x6b901122, 0xfd987193, 0xa679438e, 0x49b40821,
   0xf61e2562, 0xc040b340, 0x265e5a51, 0xe9b6c7aa,
   0xd62f105d, 0x02441453, 0xd8a1e681, 0xe7d3fbc8,
   0x21e1cde6, 0xc33707d6, 0xf4d50d87, 0x455a14ed,
   0xa9e3e905, 0xfcefa3f8, 0x676f02d9, 0x8d2a4c8a,
   0xfffa3942, 0x8771f681, 0x6d9d6122, 0xfde5380c,
   0xa4beea44, 0x4bdecfa9, 0xf6bb4b60, 0xbebfbc70,
   0x289b7ec6, 0xeaa127fa, 0xd4ef3085, 0x04881d05,
   0xd9d4d039, 0xe6db99e5, 0x1fa27cf8, 0xc4ac5665,
   0xf4292244, 0x432aff97, 0xab9423a7, 0xfc93a039,
   0x655b59c3, 0x8f0ccc92, 0xffeff47d, 0x85845dd1,
   0x6fa87e4f, 0xfe2ce6e0, 0xa3014314, 0x4e0811a1,
   0xf7537e82, 0xbd3af235, 0x2ad7d2bb, 0xeb86d391]

/-- The per-round left-rotation amounts. -/
def md5S : List Nat :=
  [7, 12, 17, 22, 7, 12, 17, 22, 7, 12, 17, 22, 7, 12, 17, 22,
   5, 9, 14, 20, 5, 9, 14, 20, 5, 9, 14, 20, 5, 9, 14, 20,
   4, 11, 16, 23, 4, 11, 16, 23, 4, 11, 16, 23, 4, 11, 16, 23,
   6, 10, 15, 21, 6, 10, 15, 21, 6, 10, 15, 21, 6, 10, 15, 21]

/-- Message-word index used in round `i`. -/
def md5gIdx (i : Nat) : Nat :=
  if i < 16 then i
  else if i < 32 then (5 * i + 1) % 16
  else if i < 48 then (3 * i + 5) % 16
  else (7 * i) % 16

/-- One MD5 round on state `(a, b, c, d)` with message words `m`. -/
def md5Round (m : List Nat) (st : Nat × Nat × Nat × Nat) (i : Nat) :
    Nat × Nat × Nat × Nat :=
  let (a, b, c, d) := st
  let f :=
    if i < 16 then md5F b c d
    else if i < 32 then md5G b c d
    else if i < 48 then md5H b c d
    else md5I b c d
  let tmp := w32 (f + a + md5K.getD i 0 + m.getD (md5gIdx i) 0)
  (d, w32 (b + w32 (rotl32 tmp (md5S.getD i 0))), b, c)

/-- Fold the 64 rounds of one block and add the result to the incoming
state. -/
def md5Block (st : Nat × Nat × Nat × Nat) (m : List Nat) :
    Nat × Nat × Nat × Nat :=
  let (a0, b0, c0, d0) := st
  let (a, b, c, d) := (List.range 64).foldl (md5Round m) (a0, b0, c0, d0)
  (w32 (a0 + a), w32 (b0 + b), w32 (c0 + c), w32 (d0 + d))

/-- Group bytes into 32-bit little-endian words. -/
def leWords : List Nat → List Nat
  | b0 :: b1 :: b2 :: b3 :: rest =>
    (b0 + 256 * b1 + 65536 * b2 + 16777216 * b3) :: leWords rest
  | _ => []

/-- Little-endian byte decomposition of a 64-bit value. -/
def leBytes8 (n : Nat) : List Nat :=
  [n % 256, n / 256 % 256, n / 65536 % 256, n / 16777216 % 256,
   n / 4294967296 % 256, n / 1099511627776 % 256,
   n / 281474976710656 % 256, n / 72057594037927936 % 256]

/-- Little-endian byte decomposition of a 32-bit value. -/
def leBytes4 (n : Nat) : List Nat :=
  [n % 256, n / 256 % 256, n / 65536 % 256, n / 16777216 % 256]

/-- MD5 padding: a `0x80` byte, zeros to 56 mod 64, then the bit length
as 64-bit little-endian. -/
def md5Pad (msg : List Nat) : List Nat :=
  let len := msg.length
  msg ++ 128 :: List.replicate ((119 - len % 64) % 64) 0
      ++ leBytes8 (8 * len % 18446744073709551616)

/-- Split a padded message into 64-byte chunks (fuelled). -/
def chunksGo : Nat → List Nat → List (List Nat)
  | _, [] => []
  | 0, _ => []
  | fuel + 1, l => l.take 64 :: chunksGo fuel (l.drop 64)

/-- Hex digit characters. -/
def hexDigit (n : Nat) : Char := "0123456789abcdef".data.getD n '0'

/-- Two lowercase hex characters of one byte. -/
def byteHex (b : Nat) : List Char := [hexDigit (b / 16), hexDigit (b % 16)]

/-- Hex rendering of a byte list. -/
def bytesHex : List Nat → List Char
  | [] => []
  | b :: bs => byteHex b ++ bytesHex bs

/-- MD5 digest of a byte string, rendered as the 32-character lowercase
hex digest. -/
def md5Hex (msg : List Nat) : List Char :=
  let padded := md5Pad msg
  let chunks := chunksGo padded.length padded
  let (a, b, c, d) :=
    chunks.foldl (fun st ch => md5Block st (leWords ch))
      (0x67452301, 0xefcdab89, 0x98badcfe, 0x10325476)
  bytesHex (leBytes4 a ++ leBytes4 b ++ leBytes4 c ++ leBytes4 d)

/-- `get_content_hash` (line 68 of `monitor.py`):
`hashlib.md5(text.encode()).hexdigest()`. -/
def get_content_hash (text : List Char) : List Char := md5Hex (utf8Bytes text)

/-! ### Normalizer (`extract_stable_content`, lines 50-65) -/

/-- The keyword filter applied when `filter_keywords` is truthy: split the
tag-stripped text on `[.!?]`, keep the segments whose lowercased form
contains some keyword (lowercased) as a substring, strip each kept
segment, and rejoin with `" | "`. -/
def filterSentences (keywords : List (List Char)) (text : List Char) : List Char :=
  let relevant :=
    ((splitSent text).filter
      (fun s => keywords.any (fun kw => containsSub (lowerL s) (lowerL kw)))).map pyStrip
  joinWith " | ".data relevant

/-- `extract_stable_content(html, filter_keywords)` (lines 50-65): remove
script and style blocks, replace remaining tags by spaces, collapse
whitespace and strip; then, when `filter_keywords` is truthy (a non-empty
list), keep only keyword-relevant sentence segments. -/
def extract_stable_content (html : List Char)
    (filter_keywords : Option (List (List Char))) : List Char :=
  let t1 := removeScript html
  let t2 := removeStyle t1
  let t3 := stripTags t2
  let text := pyStrip (squeeze t3)
  match filter_keywords with
  | some ks => if ks.isEmpty then text else filterSentences ks text
  | none => text

/-! ### Differencer (`find_differences`, lines 72-84) -/

/-- The word set of a text: lowercase, split on whitespace, first
occurrences (a deterministic stand-in for Python's unordered `set`). -/
def wordSet (text : List Char) : List (List Char) := dedupF (pySplitWs (lowerL text))

/-- Words of `xs` that are not in `ys` (`set` difference). -/
def setDiffW (xs ys : List (List Char)) : List (List Char) :=
  xs.filter (fun w => !(decide (w ∈ ys)))

/-- The sentinel returned when the word sets are equal. -/
def structuralSentinel : List Char := "Changement de structure/ordre détecté".data

/-- `find_differences(old_text, new_text)` (lines 72-84). -/
def find_differences (old_text new_text : List Char) : List Char :=
  let old_words := wordSet old_text
  let new_words := wordSet new_text
  let added := setDiffW new_words old_words
  let removed := setDiffW old_words new_words
  let diff_parts :=
    (if !added.isEmpty then
      ["Nouveaux mots: ".data ++ joinWith ", ".data (added.take 10)] else [])
    ++ (if !removed.isEmpty then
      ["Mots retirés: ".data ++ joinWith ", ".data (removed.take 10)] else [])
  if diff_parts.isEmpty then structuralSentinel
  else joinWith "\n".data diff_parts

/-! ### StateStore (`load_previous_state` / `save_state`, lines 112-131) -/

/-- Python values that can result from `json.loads` (floats omitted:
the monitor never stores them). -/
inductive PyVal where
  | pyNone
  | pyBool (b : Bool)
  | pyInt (n : Int)
  | pyStr (s : List Char)
  | pyList (xs : List PyVal)
  | pyDict (entries : List (String × PyVal))

/-- Python truthiness of a value. -/
def PyVal.truthy : PyVal → Bool
  | .pyNone => false
  | .pyBool b => b
  | .pyInt n => n ≠ 0
  | .pyStr s => !s.isEmpty
  | .pyList xs => !xs.isEmpty
  | .pyDict es => !es.isEmpty

/-- Association lookup used for dictionary subscripts. -/
def lookupKey : List (String × PyVal) → String → Option PyVal
  | [], _ => none
  | (k, v) :: rest, key => if k = key then some v else lookupKey rest key

/-- Python `value[key]`: raises `TypeError` on a non-dict, `KeyError` on a
missing key. -/
def pyGetItem : PyVal → String → Except (List Char) PyVal
  | .pyDict es, k =>
    match lookupKey es k with
    | some v => Except.ok v
    | none => Except.error ("KeyError: ".data ++ k.data)
  | _, _ => Except.error "TypeError: value is not subscriptable".data

/-- Python `dict.get(key, default)`; only reached on values that already
passed a successful subscript, hence total with a default. -/
def pyDictGet (v : PyVal) (k : String) (default : PyVal) : PyVal :=
  match v with
  | .pyDict es => (lookupKey es k).getD default
  | _ => default

/-- The observable content of a per-target state file. -/
inductive StateFile where
  /-- The file does not exist. -/
  | missing
  /-- The file exists but its stripped content is empty. -/
  | blank
  /-- The content is not valid JSON (`json.loads` raises). -/
  | invalid
  /-- The content parses to the given JSON value. -/
  | holds (v : PyVal)

/-- `load_previous_state(state_file)` (lines 112-125): `None` for a
missing file, empty content or a parse failure; a bare JSON string `s` is
wrapped as `{"hash": s, "text": ""}`; any other parsed value is returned
as-is. -/
def load_previous_state : StateFile → PyVal
  | .missing => .pyNone
  | .blank => .pyNone
  | .invalid => .pyNone
  | .holds v =>
    match v with
    | .pyStr s => .pyDict [("hash", .pyStr s), ("text", .pyStr [])]
    | other => other

/-- `save_state(state_file, content_hash, text)` (lines 128-131): the JSON
record written to disk, with `text` truncated to 50000 characters. -/
def save_state (content_hash text : List Char) : PyVal :=
  .pyDict [("hash", .pyStr content_hash), ("text", .pyStr (text.take 50000))]

/-! ### WatchEngine (`check_page`, lines 134-186) -/

/-- The (name, url, urgent keyword, filter keywords) configuration of one
Target from `PAGES`. -/
structure TargetConfig where
  name : List Char
  url : List Char
  urgent_keyword : List Char
  filter_keywords : Option (List (List Char))

/-- One call to `send_notification` recorded with the arguments the engine
passes (the transport itself is an external collaborator). -/
structure Notif where
  title : List Char
  message : List Char
  priority : Int
  url : Option (List Char)
deriving DecidableEq

/-- Which branch of `check_page` produced the cycle's result (the spec's
`CheckResult` variants that exist in this code). -/
inductive Outcome where
  | urgentMatch
  | bootstrapped
  | changed
  | unchanged
  | failed
deriving DecidableEq

/-- The observable effect of one check cycle: the branch taken, the
notifications sent, and the record written by `save_state` (if any). -/
structure CycleResult where
  outcome : Outcome
  notifs : List Notif
  write : Option PyVal

/-- ASCII apostrophe (used by the urgent notification text). -/
def quoteC : Char := Char.ofNat 39

/-- The rule-1 notification of the `except` handler (line 186). -/
def failNotif (cfg : TargetConfig) (e : List Char) : Notif :=
  ⟨"❌ Erreur monitoring ".data ++ cfg.name, e.take 200, 1, none⟩

/-- The result of a cycle that landed in the `except` handler. -/
def failedCycle (cfg : TargetConfig) (e : List Char) : CycleResult :=
  ⟨.failed, [failNotif cfg e], none⟩

/-- The urgent-match notification (lines 153-158). -/
def urgentNotif (cfg : TargetConfig) : Notif :=
  ⟨"🚨 ".data ++ cfg.name ++ " - PEUT-ÊTRE OUVERT !".data,
   quoteC :: cfg.urgent_keyword
     ++ (quoteC :: " détecté !\n\nFONCE MAINTENANT !".data),
   2, some cfg.url⟩

/-- The first-run notification (lines 165-169). -/
def bootstrapNotif (cfg : TargetConfig) : Notif :=
  ⟨"✅ Monitoring ".data ++ cfg.name ++ " activé".data,
   "Je surveille cette page.\nTu recevras une alerte si quelque chose change.".data,
   0, none⟩

/-- The change notification (lines 175-180). -/
def changedNotif (cfg : TargetConfig) (diff : List Char) : Notif :=
  ⟨"⚠️ CHANGEMENT sur ".data ++ cfg.name ++ " !".data,
   "La page a été modifiée.\n\n".data ++ diff,
   1, some cfg.url⟩

/-- The urgent condition of line 152:
`urgent_keyword and urgent_keyword in html.lower()`. -/
def urgent_condition (urgent_keyword html : List Char) : Bool :=
  !urgent_keyword.isEmpty && containsSub (lowerL html) urgent_keyword

/-- The subscript hidden in the line-150 f-string:
`previous['hash'] if previous else 'None'` — evaluated whenever the loaded
value is truthy, and raising into the `except` handler when the subscript
fails. -/
def printPrevHash (v : PyVal) : Except (List Char) Unit :=
  if v.truthy then
    match pyGetItem v "hash" with
    | .ok _ => .ok ()
    | .error e => .error e
  else .ok ()

/-- Python `current_hash != previous["hash"]`: a string differs from every
non-string value. -/
def hashDiffers (prevHash : PyVal) (current : List Char) : Bool :=
  match prevHash with
  | .pyStr s => !(s = current : Bool)
  | _ => true

/-- `check_page(name, config)` (lines 134-186), given the fetch outcome
and the state-file content.  The decision order is exactly the source's:
any exception (fetch failure or a subscript error on a malformed loaded
record) lands in the `except` handler; otherwise urgent match, bootstrap,
changed and unchanged are tried in that order. -/
def check_page (cfg : TargetConfig) (fetched : Except (List Char) (List Char))
    (st : StateFile) : CycleResult :=
  match fetched with
  | .error e => failedCycle cfg e
  | .ok html =>
    let text := extract_stable_content html cfg.filter_keywords
    let current_hash := get_content_hash text
    let previous := load_previous_state st
    match printPrevHash previous with
    | .error e => failedCycle cfg e
    | .ok _ =>
      if urgent_condition cfg.urgent_keyword html then
        ⟨.urgentMatch, [urgentNotif cfg], some (save_state current_hash text)⟩
      else
        match previous with
        | .pyNone =>
          ⟨.bootstrapped, [bootstrapNotif cfg], some (save_state current_hash text)⟩
        | prev =>
          match pyGetItem prev "hash" with
          | .error e => failedCycle cfg e
          | .ok ph =>
            if hashDiffers ph current_hash then
              match pyDictGet prev "text" (.pyStr []) with
              | .pyStr old_text =>
                ⟨.changed,
                 [changedNotif cfg (find_differences old_text text)],
                 some (save_state current_hash text)⟩
              | _ => failedCycle cfg "AttributeError: lower".data
            else ⟨.unchanged, [], none⟩

/-- Apply a cycle's `save_state` write (if any) to the state file. -/
def applyWrite (st : StateFile) : Option PyVal → StateFile
  | some v => .holds v
  | none => st

/-- One check cycle together with the resulting state file. -/
def runCycle (cfg : TargetConfig) (fetched : Except (List Char) (List Char))
    (st : StateFile) : CycleResult × StateFile :=
  let r := check_page cfg fetched st
  (r, applyWrite st r.write)

/-- `n` consecutive cycles whose fetch fails with error `e`. -/
def runFailures (cfg : TargetConfig) (e : List Char) :
    Nat → StateFile → List CycleResult × StateFile
  | 0, st => ([], st)
  | n + 1, st =>
    let p := runCycle cfg (.error e) st
    let q := runFailures cfg e n p.2
    (p.1 :: q.1, q.2)

/-! ### Heartbeat (`send_heartbeat`, lines 199-212) -/

/-- The heartbeat escalation condition (line 205): the fixed phrases
`"register now"` / `"apply now"` against the raw lowercased content. -/
def heartbeat_check (html : List Char) : Bool :=
  containsSub (lowerL html) "register now".data
    || containsSub (lowerL html) "apply now".data

/-- The heartbeat escalation notification (line 206). -/
def hbOpenNotif (cfg : TargetConfig) : Notif :=
  ⟨"🚨 ".data ++ cfg.name ++ " OUVERT !".data, "FONCE !".data, 2, some cfg.url⟩

/-- Per-target status strings of the heartbeat report. -/
def statusOpen (cfg : TargetConfig) : List Char :=
  "• ".data ++ cfg.name ++ ": ⚠️ OUVERT?".data

/-- Status line for a target whose fetch succeeded without a match. -/
def statusOk (cfg : TargetConfig) : List Char :=
  "• ".data ++ cfg.name ++ ": OK".data

/-- Status line for a target whose fetch raised. -/
def statusErr (cfg : TargetConfig) : List Char :=
  "• ".data ++ cfg.name ++ ": ❌ Erreur".data

/-- One target's slice of `send_heartbeat` (lines 202-211): notifications
sent and the status line appended. -/
def heartbeatTarget (cfg : TargetConfig)
    (fetched : Except (List Char) (List Char)) : List Notif × List Char :=
  match fetched with
  | .error _ => ([], statusErr cfg)
  | .ok html =>
    if heartbeat_check html then ([hbOpenNotif cfg], statusOpen cfg)
    else ([], statusOk cfg)

/-- The closing heartbeat summary notification (line 212). -/
def hbSummaryNotif (statuses : List (List Char)) : Notif :=
  ⟨"💓 Monitoring OK".data,
   "Le monitoring fonctionne.\n\n".data ++ joinWith "\n".data statuses,
   -1, none⟩

/-- `send_heartbeat()` (lines 199-212) over the targets and their fetch
outcomes: all notifications sent, and the per-target status lines.  It
never touches any `StateFile` (its type mentions none). -/
def send_heartbeat (targets : List (TargetConfig × Except (List Char) (List Char))) :
    List Notif × List (List Char) :=
  let per := targets.map (fun p => heartbeatTarget p.1 p.2)
  ((per.map Prod.fst).foldr (· ++ ·) [] ++ [hbSummaryNotif (per.map Prod.snd)],
   per.map Prod.snd)

/-! ### The configured targets (`PAGES`, lines 17-36) -/

/-- The shared filter-keyword list of the first two targets. -/
def iecFilters : List (List Char) :=
  ["2025".data, "2026".data, "season".data, "closed".data, "open".data,
   "december".data, "january".data, "application".data, "update".data]

/-- The "IEC Programs" target. -/
def pageIEC : TargetConfig :=
  ⟨"IEC Programs".data, "https://internship-network.org/iec-programs/".data,
   "register now".data, some iecFilters⟩

/-- The "Internship Network" target. -/
def pageInternship : TargetConfig :=
  ⟨"Internship Network".data, "https://internship-network.org".data,
   "register now".data, some iecFilters⟩

/-- The "Jenza" target (no filter keywords). -/
def pageJenza : TargetConfig :=
  ⟨"Jenza".data, "https://jenza.com/experiences/working-holidays/work-canada-ro/".data,
   "apply now".data, none⟩

/-! ### Helper lemmas -/

/-- Membership in the dedup worker. -/
theorem mem_dedupGo (w : List Char) :
    ∀ (xs seen : List (List Char)), w ∈ dedupGo seen xs ↔ w ∈ xs ∧ w ∉ seen := by
  intro xs
  induction xs with
  | nil => intro seen; simp [dedupGo]
  | cons x xs ih =>
    intro seen
    by_cases hx : x ∈ seen
    · rw [dedupGo, if_pos hx, ih]
      simp only [List.mem_cons]
      constructor
      · rintro ⟨hw, hs⟩; exact ⟨Or.inr hw, hs⟩
      · rintro ⟨hw | hw, hs⟩
        · exact absurd (hw ▸ hx) hs
        · exact ⟨hw, hs⟩
    · rw [dedupGo, if_neg hx]
      simp only [List.mem_cons, ih]
      constructor
      · rintro (h | ⟨h1, h2⟩)
        · exact ⟨Or.inl h, h ▸ hx⟩
        · push_neg at h2
          exact ⟨Or.inr h1, h2.2⟩
      · rintro ⟨h1 | h1, h2⟩
        · exact Or.inl h1
        · by_cases hwx : w = x
          · exact Or.inl hwx
          · refine Or.inr ⟨h1, ?_⟩
            push_neg
            exact ⟨hwx, h2⟩

/-- Membership in the deduplicated word list. -/
theorem mem_dedupF (w : List Char) (xs : List (List Char)) :
    w ∈ dedupF xs ↔ w ∈ xs := by
  simp [dedupF, mem_dedupGo]

/-- Membership in a word-set difference. -/
theorem mem_setDiffW (w : List Char) (t u : List Char) :
    w ∈ setDiffW (wordSet t) (wordSet u) ↔
      w ∈ pySplitWs (lowerL t) ∧ w ∉ pySplitWs (lowerL u) := by
  simp [setDiffW, List.mem_filter, wordSet, mem_dedupF]

/-- Loading back a record written by `save_state`. -/
theorem load_saved (ch t : List Char) :
    load_previous_state (.holds (save_state ch t)) =
      .pyDict [("hash", .pyStr ch), ("text", .pyStr (t.take 50000))] := rfl

/-- `check_page` on a fetch failure. -/
theorem check_page_error (cfg : TargetConfig) (e : List Char) (st : StateFile) :
    check_page cfg (.error e) st = failedCycle cfg e := rfl

/-- `check_page` when the fetch succeeds and the urgent keyword matches:
the urgent branch wins whenever the line-150 subscript cannot raise. -/
theorem check_page_urgent (cfg : TargetConfig) (html : List Char) (st : StateFile)
    (hp : printPrevHash (load_previous_state st) = .ok ())
    (hu : urgent_condition cfg.urgent_keyword html = true) :
    check_page cfg (.ok html) st =
      ⟨.urgentMatch, [urgentNotif cfg],
       some (save_state
         (get_content_hash (extract_stable_content html cfg.filter_keywords))
         (extract_stable_content html cfg.filter_keywords))⟩ := by
  simp only [check_page, hp, hu, if_true]

/-- `check_page` on a first run (no prior snapshot) without an urgent
match: the bootstrap branch. -/
theorem check_page_bootstrap (cfg : TargetConfig) (html : List Char) (st : StateFile)
    (hld : load_previous_state st = .pyNone)
    (hu : urgent_condition cfg.urgent_keyword html = false) :
    check_page cfg (.ok html) st =
      ⟨.bootstrapped, [bootstrapNotif cfg],
       some (save_state
         (get_content_hash (extract_stable_content html cfg.filter_keywords))
         (extract_stable_content html cfg.filter_keywords))⟩ := by
  simp only [check_page, hld, hu, printPrevHash, PyVal.truthy, Bool.false_eq_true,
    if_false, if_true]

/-- `check_page` against a well-formed prior snapshot without an urgent
match: unchanged on hash equality, changed otherwise. -/
theorem check_page_prior (cfg : TargetConfig) (html : List Char) (st : StateFile)
    (h0 t0 : List Char)
    (hld : load_previous_state st = .pyDict [("hash", .pyStr h0), ("text", .pyStr t0)])
    (hu : urgent_condition cfg.urgent_keyword html = false) :
    check_page cfg (.ok html) st =
      (if h0 = get_content_hash (extract_stable_content html cfg.filter_keywords) then
        ⟨.unchanged, [], none⟩
      else
        ⟨.changed,
         [changedNotif cfg
           (find_differences t0 (extract_stable_content html cfg.filter_keywords))],
         some (save_state
           (get_content_hash (extract_stable_content html cfg.filter_keywords))
           (extract_stable_content html cfg.filter_keywords))⟩) := by
  by_cases hd : h0 = get_content_hash (extract_stable_content html cfg.filter_keywords)
  · simp only [check_page, hld, hu, if_pos hd, printPrevHash, PyVal.truthy, pyGetItem,
      lookupKey, pyDictGet, hashDiffers, hd]
    simp
  · simp only [check_page, hld, hu, if_neg hd, printPrevHash, PyVal.truthy, pyGetItem,
      lookupKey, pyDictGet, hashDiffers]
    simp [hd]

/-- A prior state from which a check cycle cannot wedge: either absent or
a record of the shape the program itself writes (which also covers legacy
bare-string records after loading). -/
def GoodPrior (v : PyVal) : Prop :=
  v = .pyNone ∨ ∃ h t, v = .pyDict [("hash", .pyStr h), ("text", .pyStr t)]

/-! ### Tag-wrapping machinery (for C6)

The amended C6 claim quantifies over raw inputs in which every `'<'` is
eventually followed by a `'>'` (no dangling open bracket) and which
contain no script/style opening tag; on those, wrapping the whole
document in a `div` tag leaves the normalized text — hence the
fingerprint — unchanged. -/

/-- Every `'<'` in the list has some `'>'` strictly after it. -/
def danglingFree : List Char → Bool
  | [] => true
  | c :: cs => (!(c == '<') || cs.contains '>') && danglingFree cs

theorem danglingFree_tail {c : Char} {cs : List Char}
    (h : danglingFree (c :: cs) = true) : danglingFree cs = true := by
  rw [danglingFree, Bool.and_eq_true] at h
  exact h.2

theorem danglingFree_lt {cs : List Char} (h : danglingFree ('<' :: cs) = true) :
    cs.contains '>' = true := by
  rw [danglingFree, Bool.and_eq_true] at h
  simpa using h.1

theorem dropThroughGt_append {l r : List Char} (x : List Char)
    (h : dropThroughGt l = some r) :
    dropThroughGt (l ++ x) = some (r ++ x) := by
  induction l with
  | nil => simp [dropThroughGt] at h
  | cons c cs ih =>
    rw [dropThroughGt] at h
    by_cases hc : c = '>'
    · rw [if_pos hc] at h
      injection h with h
      rw [List.cons_append, dropThroughGt, if_pos hc, h]
    · rw [if_neg hc] at h
      rw [List.cons_append, dropThroughGt, if_neg hc]
      exact ih h

theorem exists_dropThroughGt {l : List Char} (h : l.contains '>' = true) :
    ∃ r, dropThroughGt l = some r := by
  induction l with
  | nil => simp at h
  | cons c cs ih =>
    by_cases hc : c = '>'
    · exact ⟨cs, by rw [dropThroughGt, if_pos hc]⟩
    · have h' : cs.contains '>' = true := by
        simp only [List.contains_cons, Bool.or_eq_true] at h
        rcases h with h | h
        · have : '>' = c := by simpa using h
          exact absurd this.symm hc
        · exact h
      obtain ⟨r, hr⟩ := ih h'
      exact ⟨r, by rw [dropThroughGt, if_neg hc]; exact hr⟩

theorem dropThroughGt_length {l r : List Char} (h : dropThroughGt l = some r) :
    r.length < l.length := by
  induction l generalizing r with
  | nil => simp [dropThroughGt] at h
  | cons c cs ih =>
    rw [dropThroughGt] at h
    by_cases hc : c = '>'
    · rw [if_pos hc] at h
      injection h with h
      simp [← h]
    · rw [if_neg hc] at h
      exact Nat.lt_trans (ih h) (by simp)

theorem dropThroughGt_danglingFree {l r : List Char} (h : dropThroughGt l = some r)
    (hd : danglingFree l = true) : danglingFree r = true := by
  induction l generalizing r with
  | nil => simp [dropThroughGt] at h
  | cons c cs ih =>
    rw [dropThroughGt] at h
    by_cases hc : c = '>'
    · rw [if_pos hc] at h
      injection h with h
      exact h ▸ danglingFree_tail hd
    · rw [if_neg hc] at h
      exact ih h (danglingFree_tail hd)

theorem containsSub_cons_false {c : Char} {cs pat : List Char}
    (h : containsSub (c :: cs) pat = false) :
    startsWithL pat (c :: cs) = false ∧ containsSub cs pat = false := by
  rw [containsSub, Bool.or_eq_false_iff] at h
  exact h

/-- A failed prefix match that succeeds after appending `tail` must span
the boundary: the first list is a proper prefix of the pattern and the
pattern's remainder is a prefix of `tail`. -/
theorem startsWithL_of_append {pat l tail : List Char}
    (hf : startsWithL pat l = false) (ht : startsWithL pat (l ++ tail) = true) :
    l.length < pat.length ∧ startsWithL (pat.drop l.length) tail = true := by
  induction l generalizing pat with
  | nil =>
    cases pat with
    | nil => simp [startsWithL] at hf
    | cons p ps => exact ⟨Nat.succ_pos _, by simpa using ht⟩
  | cons c cs ih =>
    cases pat with
    | nil => simp [startsWithL] at hf
    | cons p ps =>
      rw [List.cons_append, startsWithL, Bool.and_eq_true] at ht
      obtain ⟨hpc, hrest⟩ := ht
      have hpc' : p = c := by simpa using hpc
      have hfr : startsWithL ps cs = false := by
        cases hsw : startsWithL ps cs
        · rfl
        · rw [startsWithL, hpc', hsw] at hf
          simp at hf
      obtain ⟨hl, hd⟩ := ih hfr hrest
      exact ⟨Nat.succ_lt_succ hl, by simpa using hd⟩

/-- No occurrence of `pat` can appear in `h ++ tail` if none appears in
`h`, none appears in `tail`, and no proper tail of `pat` starts `tail`. -/
theorem containsSub_append_false {pat tail : List Char}
    (hspan : ∀ k, 1 ≤ k → k < pat.length → startsWithL (pat.drop k) tail = false)
    (htail : containsSub tail pat = false) :
    ∀ h, containsSub h pat = false → containsSub (h ++ tail) pat = false := by
  intro h
  induction h with
  | nil => intro _; simpa using htail
  | cons c cs ih =>
    intro hh
    obtain ⟨h1, h2⟩ := containsSub_cons_false hh
    rw [List.cons_append, containsSub]
    have hsw : startsWithL pat (c :: (cs ++ tail)) = false := by
      cases hx : startsWithL pat (c :: (cs ++ tail))
      · rfl
      · rw [show c :: (cs ++ tail) = (c :: cs) ++ tail from rfl] at hx
        obtain ⟨hl, hd⟩ := startsWithL_of_append h1 hx
        rw [hspan (c :: cs).length (by simp) hl] at hd
        cases hd
    rw [hsw, ih h2]
    rfl

/-- A scanner over content with no occurrence of the opening pattern
removes nothing. -/
theorem removeBlocksGo_id (openPat closePat : List Char) :
    ∀ (fuel : Nat) (l : List Char), containsSub l openPat = false →
      removeBlocksGo openPat closePat fuel l = l := by
  intro fuel
  induction fuel with
  | zero => intro l _; cases l <;> rfl
  | succ n ih =>
    intro l hl
    cases l with
    | nil => rfl
    | cons c cs =>
      obtain ⟨h1, h2⟩ := containsSub_cons_false hl
      rw [removeBlocksGo, if_neg (by simp [h1]), ih cs h2]

theorem containsSub_script_close {h : List Char}
    (hc : containsSub h "<script".data = false) :
    containsSub (h ++ "</div>".data) "<script".data = false := by
  refine containsSub_append_false ?_ (by decide) h hc
  intro k h1 h2
  have h2' : k < 7 := by simpa using h2
  interval_cases k <;> decide

theorem containsSub_style_close {h : List Char}
    (hc : containsSub h "<style".data = false) :
    containsSub (h ++ "</div>".data) "<style".data = false := by
  refine containsSub_append_false ?_ (by decide) h hc
  intro k h1 h2
  have h2' : k < 6 := by simpa using h2
  interval_cases k <;> decide

theorem containsSub_divPrefix_script (x : List Char) :
    containsSub ('<' :: 'd' :: 'i' :: 'v' :: '>' :: x) "<script".data =
      containsSub x "<script".data := by
  rw [containsSub, containsSub, containsSub, containsSub, containsSub,
    show startsWithL "<script".data ('<' :: 'd' :: 'i' :: 'v' :: '>' :: x) = false from rfl,
    show startsWithL "<script".data ('d' :: 'i' :: 'v' :: '>' :: x) = false from rfl,
    show startsWithL "<script".data ('i' :: 'v' :: '>' :: x) = false from rfl,
    show startsWithL "<script".data ('v' :: '>' :: x) = false from rfl,
    show startsWithL "<script".data ('>' :: x) = false from rfl]
  simp

theorem containsSub_divPrefix_style (x : List Char) :
    containsSub ('<' :: 'd' :: 'i' :: 'v' :: '>' :: x) "<style".data =
      containsSub x "<style".data := by
  rw [containsSub, containsSub, containsSub, containsSub, containsSub,
    show startsWithL "<style".data ('<' :: 'd' :: 'i' :: 'v' :: '>' :: x) = false from rfl,
    show startsWithL "<style".data ('d' :: 'i' :: 'v' :: '>' :: x) = false from rfl,
    show startsWithL "<style".data ('i' :: 'v' :: '>' :: x) = false from rfl,
    show startsWithL "<style".data ('v' :: '>' :: x) = false from rfl,
    show startsWithL "<style".data ('>' :: x) = false from rfl]
  simp

theorem stripTagsGo_nil (fuel : Nat) : stripTagsGo fuel [] = [] := by
  cases fuel <;> rfl

theorem stripTagsGo_other {c : Char} (n : Nat) (cs : List Char) (hc : ¬ c = '<') :
    stripTagsGo (n + 1) (c :: cs) = c :: stripTagsGo n cs := by
  rw [stripTagsGo.eq_def]
  simp [hc]

theorem stripTagsGo_lt_nil (n : Nat) : stripTagsGo (n + 1) ['<'] = ['<'] := rfl

theorem stripTagsGo_lt_gt (n : Nat) (ds : List Char) :
    stripTagsGo (n + 1) ('<' :: '>' :: ds) = '<' :: stripTagsGo n ('>' :: ds) := rfl

theorem stripTagsGo_lt_none {d : Char} {ds : List Char} (n : Nat) (hd : ¬ d = '>')
    (hr : dropThroughGt (d :: ds) = none) :
    stripTagsGo (n + 1) ('<' :: d :: ds) = '<' :: stripTagsGo n (d :: ds) := by
  rw [stripTagsGo.eq_def]
  simp [hd, hr]

theorem stripTagsGo_lt_some {d : Char} {ds r : List Char} (n : Nat) (hd : ¬ d = '>')
    (hr : dropThroughGt (d :: ds) = some r) :
    stripTagsGo (n + 1) ('<' :: d :: ds) = ' ' :: stripTagsGo n r := by
  rw [stripTagsGo.eq_def]
  simp [hd, hr]

/-- The fuel value is irrelevant as long as it covers the input length. -/
theorem stripTagsGo_fuel : ∀ (f1 : Nat) (l : List Char) (f2 : Nat),
    l.length ≤ f1 → l.length ≤ f2 → stripTagsGo f1 l = stripTagsGo f2 l := by
  intro f1
  induction f1 with
  | zero =>
    intro l f2 h1 _
    rw [List.length_eq_zero.mp (Nat.le_zero.mp h1), stripTagsGo_nil, stripTagsGo_nil]
  | succ n ih =>
    intro l f2 h1 h2
    cases l with
    | nil => rw [stripTagsGo_nil, stripTagsGo_nil]
    | cons c cs =>
      cases f2 with
      | zero => simp at h2
      | succ m =>
        have hcs1 : cs.length ≤ n := by simpa using h1
        have hcs2 : cs.length ≤ m := by simpa using h2
        by_cases hc : c = '<'
        · subst hc
          cases cs with
          | nil => rw [stripTagsGo_lt_nil, stripTagsGo_lt_nil]
          | cons d ds =>
            by_cases hd : d = '>'
            · subst hd
              rw [stripTagsGo_lt_gt, stripTagsGo_lt_gt, ih _ _ hcs1 hcs2]
            · cases hdr : dropThroughGt (d :: ds) with
              | none =>
                rw [stripTagsGo_lt_none n hd hdr, stripTagsGo_lt_none m hd hdr,
                  ih _ _ hcs1 hcs2]
              | some r =>
                have hr : r.length < (d :: ds).length := dropThroughGt_length hdr
                rw [stripTagsGo_lt_some n hd hdr, stripTagsGo_lt_some m hd hdr,
                  ih r m (by omega) (by omega)]
        · rw [stripTagsGo_other n cs hc, stripTagsGo_other m cs hc, ih _ _ hcs1 hcs2]

/-- Appending the closing `"</div>"` to dangling-free content appends a
single space to the tag-stripped text. -/
theorem stripTagsGo_append_close : ∀ (fuel : Nat) (h : List Char),
    h.length + 6 ≤ fuel → danglingFree h = true →
    stripTagsGo fuel (h ++ "</div>".data) = stripTagsGo fuel h ++ [' '] := by
  intro fuel
  induction fuel with
  | zero => intro h h1 _; omega
  | succ n ih =>
    intro h h1 hdf
    cases h with
    | nil =>
      rw [stripTagsGo_nil]
      show stripTagsGo (n + 1) ('<' :: '/' :: 'd' :: 'i' :: 'v' :: '>' :: []) = [' ']
      rw [stripTagsGo_lt_some n (by decide)
        (show dropThroughGt ('/' :: 'd' :: 'i' :: 'v' :: '>' :: []) = some [] from rfl),
        stripTagsGo_nil]
    | cons c cs =>
      have hlen : cs.length + 6 ≤ n := by simpa using h1
      by_cases hc : c = '<'
      · subst hc
        cases cs with
        | nil => simp [danglingFree] at hdf
        | cons d ds =>
          by_cases hd : d = '>'
          · subst hd
            show stripTagsGo (n + 1) ('<' :: '>' :: (ds ++ "</div>".data)) = _
            rw [stripTagsGo_lt_gt, stripTagsGo_lt_gt]
            have := ih ('>' :: ds) hlen (danglingFree_tail hdf)
            rw [show ('>' :: ds) ++ "</div>".data = '>' :: (ds ++ "</div>".data) from rfl] at this
            rw [this]
            rfl
          · have hgt : (d :: ds).contains '>' = true := danglingFree_lt hdf
            obtain ⟨r, hr⟩ := exists_dropThroughGt hgt
            have hrlen : r.length < (d :: ds).length := dropThroughGt_length hr
            have hr2 : dropThroughGt (d :: (ds ++ "</div>".data)) =
                some (r ++ "</div>".data) := dropThroughGt_append "</div>".data hr
            show stripTagsGo (n + 1) ('<' :: d :: (ds ++ "</div>".data)) = _
            rw [stripTagsGo_lt_some n hd hr2, stripTagsGo_lt_some n hd hr,
              ih r (by simp only [List.length_cons] at hrlen hlen; omega)
                (dropThroughGt_danglingFree hr (danglingFree_tail hdf))]
            rfl
      · show stripTagsGo (n + 1) (c :: (cs ++ "</div>".data)) = _
        rw [stripTagsGo_other n _ hc, stripTagsGo_other n cs hc,
          ih cs hlen (danglingFree_tail hdf)]
        rfl

/-- Tag-stripping a `div`-wrapped dangling-free document yields the
original tag-stripped text padded with one space on each side. -/
theorem stripTags_wrapDiv {h : List Char} (hdf : danglingFree h = true) :
    stripTags ("<div>".data ++ h ++ "</div>".data) =
      ' ' :: (stripTags h ++ [' ']) := by
  rw [stripTags, List.append_assoc]
  have hlist : "<div>".data ++ (h ++ "</div>".data) =
      '<' :: 'd' :: 'i' :: 'v' :: '>' :: (h ++ "</div>".data) := rfl
  rw [hlist]
  have hlen : ('<' :: 'd' :: 'i' :: 'v' :: '>' :: (h ++ "</div>".data)).length =
      (h.length + 10) + 1 := by simp
  rw [hlen,
    stripTagsGo_lt_some (h.length + 10) (by decide)
      (show dropThroughGt ('d' :: 'i' :: 'v' :: '>' :: (h ++ "</div>".data)) =
        some (h ++ "</div>".data) from rfl),
    stripTagsGo_append_close (h.length + 10) h (by omega) hdf,
    stripTagsGo_fuel (h.length + 10) h h.length (by omega) (by omega)]
  rw [stripTags]

theorem pyLStrip_cons_pos {c : Char} (l : List Char) (hc : isPySpace c = true) :
    pyLStrip (c :: l) = pyLStrip l := by
  simp [pyLStrip, List.dropWhile_cons, hc]

theorem pyLStrip_cons_neg {c : Char} (l : List Char) (hc : isPySpace c = false) :
    pyLStrip (c :: l) = c :: l := by
  simp [pyLStrip, List.dropWhile_cons, hc]

theorem dropWhile_idem (p : Char → Bool) (l : List Char) :
    (l.dropWhile p).dropWhile p = l.dropWhile p := by
  cases h : l.dropWhile p with
  | nil => rfl
  | cons x xs =>
    have hx : p x = false := by
      have := List.head?_dropWhile_not p l
      rw [h] at this
      simpa using this
    simp [List.dropWhile_cons, hx]

theorem pyRStrip_cons (c : Char) (z : List Char) :
    pyRStrip (c :: z) = if pyRStrip z = [] then (if isPySpace c then [] else [c])
      else c :: pyRStrip z := by
  rw [pyRStrip, List.reverse_cons, List.dropWhile_append]
  by_cases hz : pyRStrip z = []
  · have hz0 : z.reverse.dropWhile isPySpace = [] := by
      rw [pyRStrip, List.reverse_eq_nil_iff] at hz
      exact hz
    rw [if_pos (by simp [hz0]), if_pos hz]
    by_cases hc : isPySpace c
    · rw [if_pos hc]
      simp [List.dropWhile_cons, hc]
    · have hc' : isPySpace c = false := by simpa using hc
      rw [if_neg hc]
      simp [List.dropWhile_cons, hc']
  · have hz0 : ¬ z.reverse.dropWhile isPySpace = [] := by
      intro hcon
      exact hz (by rw [pyRStrip, hcon]; rfl)
    rw [if_neg (by simpa using hz0), if_neg hz, List.reverse_append]
    simp [pyRStrip]

theorem pyRStrip_eq_nil_iff {z : List Char} :
    pyRStrip z = [] ↔ ∀ x ∈ z, isPySpace x = true := by
  rw [pyRStrip, List.reverse_eq_nil_iff, List.dropWhile_eq_nil_iff]
  simp

theorem pyLStrip_eq_nil_iff {z : List Char} :
    pyLStrip z = [] ↔ ∀ x ∈ z, isPySpace x = true := by
  rw [pyLStrip, List.dropWhile_eq_nil_iff]

theorem pyRStrip_append_space (w : List Char) : pyRStrip (w ++ [' ']) = pyRStrip w := by
  rw [pyRStrip, pyRStrip, List.reverse_append]
  simp [List.dropWhile_cons, isPySpace]

theorem pyRStrip_idem (z : List Char) : pyRStrip (pyRStrip z) = pyRStrip z := by
  simp [pyRStrip, List.reverse_reverse, dropWhile_idem]

theorem lstrip_rstrip_comm (z : List Char) :
    pyLStrip (pyRStrip z) = pyRStrip (pyLStrip z) := by
  induction z with
  | nil => rfl
  | cons c z ih =>
    rw [pyRStrip_cons]
    by_cases hz : pyRStrip z = []
    · rw [if_pos hz]
      by_cases hc : isPySpace c
      · rw [if_pos hc, pyLStrip_cons_pos z hc, ← ih, hz]
      · have hc' : isPySpace c = false := by simpa using hc
        rw [if_neg hc, pyLStrip_cons_neg z hc', pyLStrip_cons_neg [] hc',
          pyRStrip_cons, if_pos hz, if_neg hc]
    · rw [if_neg hz]
      by_cases hc : isPySpace c
      · rw [pyLStrip_cons_pos _ hc, ih, pyLStrip_cons_pos z hc]
      · have hc' : isPySpace c = false := by simpa using hc
        rw [pyLStrip_cons_neg _ hc', pyLStrip_cons_neg z hc',
          pyRStrip_cons, if_neg hz]

theorem isPySpace_space : isPySpace ' ' = true := rfl

theorem squeeze_cons_nonspace {d : Char} (r : List Char) (hd : isPySpace d = false) :
    ∃ z, squeeze (d :: r) = d :: z := by
  cases r with
  | nil => exact ⟨[], by simp [squeeze, hd]⟩
  | cons r0 rr => exact ⟨squeeze (r0 :: rr), by simp [squeeze, hd]⟩

/-- Collapsing whitespace commutes with a trailing space: the result is
the collapsed text, right-stripped, plus one space. -/
theorem squeeze_append_space : ∀ l : List Char,
    squeeze (l ++ [' ']) = pyRStrip (squeeze l) ++ [' '] := by
  intro l
  induction l with
  | nil => rfl
  | cons c t ih =>
    cases t with
    | nil =>
      by_cases hc : isPySpace c
      · show squeeze [c, ' '] = pyRStrip (squeeze [c]) ++ [' ']
        simp [squeeze, hc, pyRStrip, List.dropWhile_cons, isPySpace_space]
      · have hc' : isPySpace c = false := by simpa using hc
        show squeeze [c, ' '] = pyRStrip (squeeze [c]) ++ [' ']
        simp [squeeze, hc', pyRStrip, List.dropWhile_cons, isPySpace_space]
    | cons d r =>
      have ih' : squeeze (d :: (r ++ [' '])) = pyRStrip (squeeze (d :: r)) ++ [' '] := ih
      show squeeze (c :: d :: (r ++ [' '])) = pyRStrip (squeeze (c :: d :: r)) ++ [' ']
      by_cases hcd : (isPySpace c && isPySpace d) = true
      · have e1 : squeeze (c :: d :: (r ++ [' '])) = squeeze (d :: (r ++ [' '])) := by
          rw [squeeze, if_pos hcd]
        have e2 : squeeze (c :: d :: r) = squeeze (d :: r) := by
          rw [squeeze, if_pos hcd]
        rw [e1, e2, ih']
      · have e1 : squeeze (c :: d :: (r ++ [' '])) =
            (if isPySpace c then ' ' else c) :: squeeze (d :: (r ++ [' '])) := by
          rw [squeeze, if_neg hcd]
        have e2 : squeeze (c :: d :: r) =
            (if isPySpace c then ' ' else c) :: squeeze (d :: r) := by
          rw [squeeze, if_neg hcd]
        rw [e1, e2, ih', pyRStrip_cons]
        by_cases hX : pyRStrip (squeeze (d :: r)) = []
        · have hd : isPySpace d = true := by
            by_contra hdc
            have hd' : isPySpace d = false := by simpa using hdc
            obtain ⟨z, hz⟩ := squeeze_cons_nonspace r hd'
            rw [hz] at hX
            have hmem := pyRStrip_eq_nil_iff.mp hX d (List.mem_cons_self _ _)
            simp [hmem] at hd'
          have hcx : isPySpace c = false := by
            cases hcv : isPySpace c
            · rfl
            · exact absurd (by rw [hcv, hd]; rfl) hcd
          rw [if_pos hX, hX]
          simp [hcx]
        · rw [if_neg hX]
          rfl

/-- A leading space does not change the stripped collapsed text. -/
theorem pyStrip_squeeze_space_cons (l : List Char) :
    pyStrip (squeeze (' ' :: l)) = pyStrip (squeeze l) := by
  cases l with
  | nil => rfl
  | cons u v =>
    by_cases hu : isPySpace u
    · have e : squeeze (' ' :: u :: v) = squeeze (u :: v) := by
        rw [squeeze, if_pos (by simp [hu, isPySpace_space])]
      rw [e]
    · have hu' : isPySpace u = false := by simpa using hu
      have e : squeeze (' ' :: u :: v) = ' ' :: squeeze (u :: v) := by
        rw [squeeze, if_neg (by simp [hu', isPySpace_space])]
        rfl
      rw [e, pyStrip, pyLStrip_cons_pos _ isPySpace_space]
      rfl

/-- A trailing space does not change the stripped collapsed text. -/
theorem pyStrip_squeeze_append_space (l : List Char) :
    pyStrip (squeeze (l ++ [' '])) = pyStrip (squeeze l) := by
  rw [squeeze_append_space, pyStrip]
  by_cases hY : pyLStrip (pyRStrip (squeeze l)) = []
  · have hYnil : pyRStrip (squeeze l) = [] := by
      rcases hcase : pyRStrip (squeeze l) with _ | ⟨y, ys⟩
      · rfl
      · exfalso
        rw [hcase] at hY
        have hall := pyLStrip_eq_nil_iff.mp hY
        have hrev : (y :: ys).reverse = (squeeze l).reverse.dropWhile isPySpace := by
          rw [← hcase, pyRStrip, List.reverse_reverse]
        rcases hrh : (squeeze l).reverse.dropWhile isPySpace with _ | ⟨w, ws⟩
        · rw [hrh] at hrev
          simp at hrev
        · have hw : isPySpace w = false := by
            have := List.head?_dropWhile_not isPySpace (squeeze l).reverse
            rw [hrh] at this
            simpa using this
          have hwmem : w ∈ y :: ys := by
            rw [← List.mem_reverse, hrev, hrh]
            exact List.mem_cons_self _ _
          simp [hall w hwmem] at hw
    rw [hYnil]
    have hall2 : ∀ x ∈ squeeze l, isPySpace x = true := pyRStrip_eq_nil_iff.mp hYnil
    rw [pyStrip, pyLStrip_eq_nil_iff.mpr hall2]
    rfl
  · have e1 : pyLStrip (pyRStrip (squeeze l) ++ [' ']) =
        pyLStrip (pyRStrip (squeeze l)) ++ [' '] := by
      rw [pyLStrip, pyLStrip, List.dropWhile_append,
        if_neg (by simpa [pyLStrip] using hY)]
    rw [e1, pyRStrip_append_space, lstrip_rstrip_comm, pyRStrip_idem, pyStrip]

/-- The space padding added by tag-stripping the wrapper vanishes under
whitespace collapsing and stripping. -/
theorem pyStrip_squeeze_pad (l : List Char) :
    pyStrip (squeeze (' ' :: (l ++ [' ']))) = pyStrip (squeeze l) := by
  rw [pyStrip_squeeze_space_cons, pyStrip_squeeze_append_space]

theorem removeScript_id {l : List Char} (h : containsSub l "<script".data = false) :
    removeScript l = l :=
  removeBlocksGo_id _ _ _ _ h

theorem removeStyle_id {l : List Char} (h : containsSub l "<style".data = false) :
    removeStyle l = l :=
  removeBlocksGo_id _ _ _ _ h

/-- Wrapping a script-free, style-free, dangling-free document in a `div`
tag leaves the normalized text unchanged, for any keyword filter. -/
theorem extract_wrapDiv {html : List Char}
    (hs : containsSub html "<script".data = false)
    (hy : containsSub html "<style".data = false)
    (hdf : danglingFree html = true) (fk : Option (List (List Char))) :
    extract_stable_content ("<div>".data ++ html ++ "</div>".data) fk =
      extract_stable_content html fk := by
  have hw : "<div>".data ++ html ++ "</div>".data =
      '<' :: 'd' :: 'i' :: 'v' :: '>' :: (html ++ "</div>".data) := by
    rw [List.append_assoc]
    rfl
  have hsw : containsSub ("<div>".data ++ html ++ "</div>".data) "<script".data = false := by
    rw [hw, containsSub_divPrefix_script]
    exact containsSub_script_close hs
  have hyw : containsSub ("<div>".data ++ html ++ "</div>".data) "<style".data = false := by
    rw [hw, containsSub_divPrefix_style]
    exact containsSub_style_close hy
  simp only [extract_stable_content]
  rw [removeScript_id hsw, removeScript_id hs, removeStyle_id hyw, removeStyle_id hy,
    stripTags_wrapDiv hdf, pyStrip_squeeze_pad]

/-! ### Claims -/

/-- C1 (counterexample): two consecutive fetch failures starting from a
non-error prior snapshot (here: no snapshot at all) emit TWO problem
notifications, not the single de-duplicated one the claim requires; both
are at priority 1. -/
theorem c1_counterexample :
    ((runFailures pageJenza "boom".data 2 .missing).1.foldr
        (fun r acc => r.notifs ++ acc) []).length = 2 ∧
      ((runFailures pageJenza "boom".data 2 .missing).1.foldr
        (fun r acc => r.notifs ++ acc) []).all (fun nf => nf.priority == 1) = true := by
  constructor <;> rfl

/-- C1 (amended): on every failing cycle the engine emits exactly one
problem-urgency (priority 1) notification — so `n` consecutive failures
produce `n` notifications, with no de-duplication — and writes nothing,
leaving the persisted state (previous fingerprint and text) untouched;
no error flag is ever recorded, and no recovery notification exists. -/
theorem c1_failure_cycles (cfg : TargetConfig) (e : List Char) :
    ∀ (n : Nat) (st : StateFile),
      (runFailures cfg e n st).1 = List.replicate n (failedCycle cfg e) ∧
      (runFailures cfg e n st).2 = st ∧
      (failedCycle cfg e).notifs = [failNotif cfg e] ∧
      (failedCycle cfg e).write = none ∧
      (failNotif cfg e).priority = 1 := by
  intro n
  induction n with
  | zero => intro st; exact ⟨rfl, rfl, rfl, rfl, rfl⟩
  | succ n ih =>
    intro st
    refine ⟨?_, ?_, rfl, rfl, rfl⟩
    · show check_page cfg (.error e) st :: (runFailures cfg e n st).1 = _
      rw [(ih st).1, check_page_error, List.replicate_succ]
    · show (runFailures cfg e n st).2 = st
      exact (ih st).2.1

/-- C2: whenever the fetch succeeds and the raw lowercased content
contains the target's configured urgent phrase, the engine notifies at
maximum urgency (priority 2) and persists the new fingerprint and text —
on every such cycle, whatever the prior state (first run or repeat), and
before bootstrap/unchanged/changed are even considered.  The persisted
record holds only the new hash and text (no error marker). -/
theorem c2_urgent_every_cycle (cfg : TargetConfig) (html : List Char) (st : StateFile)
    (hu : urgent_condition cfg.urgent_keyword html = true)
    (hp : printPrevHash (load_previous_state st) = .ok ()) :
    check_page cfg (.ok html) st =
      ⟨.urgentMatch, [urgentNotif cfg],
       some (save_state
         (get_content_hash (extract_stable_content html cfg.filter_keywords))
         (extract_stable_content html cfg.filter_keywords))⟩ ∧
    (urgentNotif cfg).priority = 2 := by
  exact ⟨check_page_urgent cfg html st hp hu, rfl⟩

/-- C2 (witness): the spec's own example — the Jenza target with urgent
phrase "apply now" and the raw content "Apply Now for 2026" — fires the
urgent branch, even though a snapshot from a previous run of the same
content already exists (a repeat run). -/
theorem c2_urgent_witness :
    urgent_condition pageJenza.urgent_keyword "Apply Now for 2026".data = true ∧
    printPrevHash (load_previous_state
      (.holds (save_state "abc".data "Apply Now for 2026".data))) = .ok () ∧
    check_page pageJenza (.ok "Apply Now for 2026".data)
        (.holds (save_state "abc".data "Apply Now for 2026".data)) =
      ⟨.urgentMatch, [urgentNotif pageJenza],
       some (save_state
         (get_content_hash
           (extract_stable_content "Apply Now for 2026".data pageJenza.filter_keywords))
         (extract_stable_content "Apply Now for 2026".data pageJenza.filter_keywords))⟩ :=
  ⟨by decide, rfl,
   (c2_urgent_every_cycle pageJenza "Apply Now for 2026".data
     (.holds (save_state "abc".data "Apply Now for 2026".data)) (by decide) rfl).1⟩

/-- C3: the first check for a never-seen target (no prior snapshot) never
yields changed or unchanged whatever the fetch outcome, and — when the
fetch succeeds and the urgent phrase is absent — yields the bootstrap
result: persist the new fingerprint and text (no error marker) and send
the single informational (priority 0) "monitoring started" notification,
whose fixed message mentions no diff. -/
theorem c3_bootstrap (cfg : TargetConfig) (st : StateFile)
    (hld : load_previous_state st = .pyNone) :
    (∀ fetched, (check_page cfg fetched st).outcome ≠ .changed ∧
      (check_page cfg fetched st).outcome ≠ .unchanged) ∧
    (∀ html, urgent_condition cfg.urgent_keyword html = false →
      check_page cfg (.ok html) st =
        ⟨.bootstrapped, [bootstrapNotif cfg],
         some (save_state
           (get_content_hash (extract_stable_content html cfg.filter_keywords))
           (extract_stable_content html cfg.filter_keywords))⟩ ∧
      (bootstrapNotif cfg).priority = 0) := by
  constructor
  · intro fetched
    match fetched with
    | .error e => rw [check_page_error]; exact ⟨by simp [failedCycle], by simp [failedCycle]⟩
    | .ok html =>
      by_cases hu : urgent_condition cfg.urgent_keyword html
      · rw [check_page_urgent cfg html st (by rw [hld]; rfl) hu]
        exact ⟨by simp, by simp⟩
      · rw [check_page_bootstrap cfg html st hld (by simpa using hu)]
        exact ⟨by simp, by simp⟩
  · intro html hu
    exact ⟨check_page_bootstrap cfg html st hld hu, rfl⟩

/-- C3 (witness): a concrete first run of the Jenza target on content
without the urgent phrase. -/
theorem c3_bootstrap_witness :
    load_previous_state .missing = .pyNone ∧
    urgent_condition pageJenza.urgent_keyword "hello world".data = false ∧
    check_page pageJenza (.ok "hello world".data) .missing =
      ⟨.bootstrapped, [bootstrapNotif pageJenza],
       some (save_state
         (get_content_hash
           (extract_stable_content "hello world".data pageJenza.filter_keywords))
         (extract_stable_content "hello world".data pageJenza.filter_keywords))⟩ :=
  ⟨rfl, by decide,
   ((c3_bootstrap pageJenza .missing rfl).2 "hello world".data (by decide)).1⟩

/-- C4: from any non-wedging prior state, two consecutive checks of the
same target with byte-identical fetched content (and no urgent match)
yield the unchanged result on the second check: no notification and no
persistence write. -/
theorem c4_unchanged_second_check (cfg : TargetConfig) (html : List Char) (st : StateFile)
    (hg : GoodPrior (load_previous_state st))
    (hu : urgent_condition cfg.urgent_keyword html = false) :
    (runCycle cfg (.ok html) (runCycle cfg (.ok html) st).2).1 =
      ⟨.unchanged, [], none⟩ := by
  rcases hg with hld | ⟨h0, t0, hld⟩
  · have r1 : runCycle cfg (.ok html) st =
        (⟨.bootstrapped, [bootstrapNotif cfg],
          some (save_state
            (get_content_hash (extract_stable_content html cfg.filter_keywords))
            (extract_stable_content html cfg.filter_keywords))⟩,
         .holds (save_state
            (get_content_hash (extract_stable_content html cfg.filter_keywords))
            (extract_stable_content html cfg.filter_keywords))) := by
      rw [runCycle, check_page_bootstrap cfg html st hld hu]; rfl
    rw [r1]
    show (runCycle cfg (.ok html) (.holds (save_state _ _))).1 = _
    rw [runCycle, check_page_prior cfg html _ _ _ (load_saved _ _) hu, if_pos rfl]
  · by_cases hd : h0 = get_content_hash (extract_stable_content html cfg.filter_keywords)
    · have r1 : runCycle cfg (.ok html) st = (⟨.unchanged, [], none⟩, st) := by
        rw [runCycle, check_page_prior cfg html st h0 t0 hld hu, if_pos hd]; rfl
      rw [r1]
      show (runCycle cfg (.ok html) st).1 = _
      rw [runCycle, check_page_prior cfg html st h0 t0 hld hu, if_pos hd]
    · have r1 : runCycle cfg (.ok html) st =
          (⟨.changed,
            [changedNotif cfg
              (find_differences t0 (extract_stable_content html cfg.filter_keywords))],
            some (save_state
              (get_content_hash (extract_stable_content html cfg.filter_keywords))
              (extract_stable_content html cfg.filter_keywords))⟩,
           .holds (save_state
              (get_content_hash (extract_stable_content html cfg.filter_keywords))
              (extract_stable_content html cfg.filter_keywords))) := by
        rw [runCycle, check_page_prior cfg html st h0 t0 hld hu, if_neg hd]; rfl
      rw [r1]
      show (runCycle cfg (.ok html) (.holds (save_state _ _))).1 = _
      rw [runCycle, check_page_prior cfg html _ _ _ (load_saved _ _) hu, if_pos rfl]

/-- C4 (witness): a concrete pair of identical checks starting from no
snapshot. -/
theorem c4_unchanged_witness :
    GoodPrior (load_previous_state .missing) ∧
    urgent_condition pageJenza.urgent_keyword "hello world".data = false ∧
    (runCycle pageJenza (.ok "hello world".data)
        (runCycle pageJenza (.ok "hello world".data) .missing).2).1 =
      ⟨.unchanged, [], none⟩ :=
  ⟨Or.inl rfl, by decide,
   c4_unchanged_second_check pageJenza "hello world".data .missing (Or.inl rfl) (by decide)⟩

/-- C5 (counterexample): the heartbeat escalates the Jenza target (whose
configured urgent phrase is "apply now") on content containing only
"register now" — the fixed heartbeat phrases, not the target's configured
phrase, decide escalation, so it does not re-check "each Target's
configured urgent-phrase condition ... exactly as decision rule 3". -/
theorem c5_counterexample :
    (heartbeatTarget pageJenza (.ok "please register now".data)).1 =
      [hbOpenNotif pageJenza] ∧
    urgent_condition pageJenza.urgent_keyword "please register now".data = false := by
  constructor <;> rfl

/-- C5 (amended): the heartbeat reports one status line per target
(fetch attempted for each, OK / error / possibly-open), touches no state
file (none appears in its type), performs no bootstrap or diffing, and
escalates at maximum urgency (priority 2) exactly when the raw lowercased
content contains one of the fixed phrases "register now" / "apply now" —
regardless of the target's configured urgent phrase. -/
theorem c5_heartbeat (ts : List (TargetConfig × Except (List Char) (List Char)))
    (cfg : TargetConfig) (e html : List Char) :
    (send_heartbeat ts).2 = ts.map (fun p => (heartbeatTarget p.1 p.2).2) ∧
    (send_heartbeat ts).2.length = ts.length ∧
    heartbeatTarget cfg (.error e) = ([], statusErr cfg) ∧
    heartbeatTarget cfg (.ok html) =
      (if heartbeat_check html then ([hbOpenNotif cfg], statusOpen cfg)
       else ([], statusOk cfg)) ∧
    ((heartbeatTarget cfg (.ok html)).1 ≠ [] ↔ heartbeat_check html = true) ∧
    (hbOpenNotif cfg).priority = 2 := by
  refine ⟨by simp [send_heartbeat], by simp [send_heartbeat], rfl, rfl, ?_, rfl⟩
  by_cases hc : heartbeat_check html <;> simp [heartbeatTarget, hc]

/-- C6 (counterexample): wrapping the raw input `"a>b<c"` — whose
dangling `'<'` captures the wrapper's closing tag — in a div tag changes
the normalized text (from `"a>b<c"` to `"a>b"`) and hence the
fingerprint, so the claim does not hold for every raw HTML input. -/
theorem c6_counterexample :
    "<div>a>b<c</div>".data = "<div>".data ++ "a>b<c".data ++ "</div>".data ∧
    get_content_hash (extract_stable_content "<div>a>b<c</div>".data none) ≠
      get_content_hash (extract_stable_content "a>b<c".data none) := by
  constructor
  · rfl
  · decide

/-- C6 (amended): for raw inputs with no script or style opening tag and
in which every `'<'` is followed by a later `'>'`, wrapping the document
in an additional div tag leaves the fingerprint unchanged for every
keyword filter: the fingerprint is computed over the normalized
(tag-stripped, whitespace-collapsed, trimmed) text, never the raw
markup. -/
theorem c6_wrap_fingerprint (html : List Char) (fk : Option (List (List Char)))
    (hs : containsSub html "<script".data = false)
    (hy : containsSub html "<style".data = false)
    (hdf : danglingFree html = true) :
    get_content_hash (extract_stable_content ("<div>".data ++ html ++ "</div>".data) fk) =
      get_content_hash (extract_stable_content html fk) := by
  rw [extract_wrapDiv hs hy hdf fk]

/-- C6 (witness): a concrete well-formed snippet keeps its fingerprint
when wrapped. -/
theorem c6_wrap_witness :
    containsSub "Hello <b>world</b>!".data "<script".data = false ∧
    containsSub "Hello <b>world</b>!".data "<style".data = false ∧
    danglingFree "Hello <b>world</b>!".data = true ∧
    get_content_hash (extract_stable_content
        ("<div>".data ++ "Hello <b>world</b>!".data ++ "</div>".data) none) =
      get_content_hash (extract_stable_content "Hello <b>world</b>!".data none) :=
  ⟨by decide, by decide, by decide,
   c6_wrap_fingerprint "Hello <b>world</b>!".data none (by decide) (by decide) (by decide)⟩

/-- C7: `find_differences` tokenizes both texts into case-insensitive
whitespace-delimited word sets; the words it can list are exactly
`added = newWords − oldWords` and `removed = oldWords − newWords`, at most
10 of each; and it returns the fixed structural-only-change sentinel
exactly when both differences are empty. -/
theorem c7_diff_contract (old_text new_text : List Char) :
    (∀ w, w ∈ setDiffW (wordSet new_text) (wordSet old_text) ↔
      w ∈ pySplitWs (lowerL new_text) ∧ w ∉ pySplitWs (lowerL old_text)) ∧
    (∀ w, w ∈ setDiffW (wordSet old_text) (wordSet new_text) ↔
      w ∈ pySplitWs (lowerL old_text) ∧ w ∉ pySplitWs (lowerL new_text)) ∧
    (find_differences old_text new_text = structuralSentinel ↔
      setDiffW (wordSet new_text) (wordSet old_text) = [] ∧
      setDiffW (wordSet old_text) (wordSet new_text) = []) ∧
    (∃ shownAdded shownRemoved : List (List Char),
      shownAdded.length ≤ 10 ∧ shownRemoved.length ≤ 10 ∧
      (∀ w ∈ shownAdded, w ∈ setDiffW (wordSet new_text) (wordSet old_text)) ∧
      (∀ w ∈ shownRemoved, w ∈ setDiffW (wordSet old_text) (wordSet new_text)) ∧
      find_differences old_text new_text =
        (if (setDiffW (wordSet new_text) (wordSet old_text)).isEmpty &&
            (setDiffW (wordSet old_text) (wordSet new_text)).isEmpty then
          structuralSentinel
        else
          joinWith "\n".data
            ((if !(setDiffW (wordSet new_text) (wordSet old_text)).isEmpty then
                ["Nouveaux mots: ".data ++ joinWith ", ".data shownAdded] else [])
             ++ (if !(setDiffW (wordSet old_text) (wordSet new_text)).isEmpty then
                ["Mots retirés: ".data ++ joinWith ", ".data shownRemoved] else [])))) := by
  refine ⟨fun w => mem_setDiffW w new_text old_text,
    fun w => mem_setDiffW w old_text new_text, ?_, ?_⟩
  · rw [find_differences]
    rcases ha : setDiffW (wordSet new_text) (wordSet old_text) with _ | ⟨a, as⟩ <;>
      rcases hr : setDiffW (wordSet old_text) (wordSet new_text) with _ | ⟨r, rs⟩ <;>
      simp [joinWith, structuralSentinel, ha, hr]
  · refine ⟨(setDiffW (wordSet new_text) (wordSet old_text)).take 10,
      (setDiffW (wordSet old_text) (wordSet new_text)).take 10,
      List.length_take_le 10 _, List.length_take_le 10 _,
      fun w hw => List.mem_of_mem_take hw, fun w hw => List.mem_of_mem_take hw, ?_⟩
    rw [find_differences]
    rcases setDiffW (wordSet new_text) (wordSet old_text) with _ | ⟨a, as⟩ <;>
      rcases setDiffW (wordSet old_text) (wordSet new_text) with _ | ⟨r, rs⟩ <;>
      simp

/-- C8 (counterexample): a persisted record that is valid JSON of the
wrong shape (the number 5) is NOT treated as absent — `load` returns it
as-is. -/
theorem c8_counterexample :
    load_previous_state (.holds (.pyInt 5)) ≠ .pyNone := by
  intro h
  exact PyVal.noConfusion h

/-- C8 (amended): `load` fails soft only on records that cannot be parsed
at all — a missing file, empty content, or invalid JSON yield absent and
never a hard error — while a parseable record of the wrong shape is
returned unchanged (wedging that cycle into the error path later); a
legacy bare string `s` is interpreted as the snapshot with fingerprint
`s` and empty text (and no error flag, the code's only representation of
a non-error state). -/
theorem c8_load_soft (st : StateFile) (s : List Char)
    (h : st = .missing ∨ st = .blank ∨ st = .invalid) :
    load_previous_state st = .pyNone ∧
    load_previous_state (.holds (.pyStr s)) =
      .pyDict [("hash", .pyStr s), ("text", .pyStr [])] := by
  refine ⟨?_, rfl⟩
  rcases h with h | h | h <;> rw [h] <;> rfl

/-- C8 (witness): the invalid-JSON case, and a concrete legacy string. -/
theorem c8_load_soft_witness :
    (StateFile.invalid = .missing ∨ StateFile.invalid = .blank ∨
      StateFile.invalid = .invalid) ∧
    load_previous_state .invalid = .pyNone ∧
    load_previous_state (.holds (.pyStr "abc123".data)) =
      .pyDict [("hash", .pyStr "abc123".data), ("text", .pyStr [])] :=
  ⟨Or.inr (Or.inr rfl),
   (c8_load_soft .invalid "abc123".data (Or.inr (Or.inr rfl))).1,
   (c8_load_soft .invalid "abc123".data (Or.inr (Or.inr rfl))).2⟩

/-- C9: `save_state` always persists the text truncated to at most 50000
characters, whatever the input length, alongside the fingerprint. -/
theorem c9_save_truncates (content_hash text : List Char) :
    ∃ stored : List Char,
      save_state content_hash text =
        .pyDict [("hash", .pyStr content_hash), ("text", .pyStr stored)] ∧
      stored.length ≤ 50000 ∧ stored = text.take 50000 := by
  exact ⟨text.take 50000, rfl, List.length_take_le 50000 text, rfl⟩

/-- C10: an empty (falsy) keyword list disables sentence filtering
entirely — `extract_stable_content` with `some []` equals the run with no
keyword list at all, the full tag-stripped, whitespace-collapsed, trimmed
text. -/
theorem c10_empty_keywords (html : List Char) :
    extract_stable_content html (some []) = extract_stable_content html none := rfl

end Monitor
